import Mathlib

/-!
Shallow embedding of `predict.py` from the cog-sdxl-lightning-4step
repository: the scheduler registry (`SCHEDULERS`, `KarrasDPM`), the
`Predictor.setup` weight-fetching/loading sequence, and the
`Predictor.predict` request handler (seed resolution, scheduler swap,
batched generation, safety screening, output assembly).

External library calls (the diffusion pipeline, the safety-checker model)
are modelled as deterministic oracle functions passed in as parameters;
images are abstract values (`Nat`).  Machine-level details that no claim
touches (actual tensor contents, devices) are abstracted, but the control
flow, string constants, and data flow of the Python source are embedded
faithfully, including the exact keyword-argument behaviour of
`KarrasDPM.from_config`.
-/

/-- Cache-directory constant `SAFETY_CACHE = "safety-cache"` (predict.py line 33). -/
def SAFETY_CACHE : String := "safety-cache"

/-- Cache-directory constant `BASE_CACHE = "checkpoints"` (predict.py line 32). -/
def BASE_CACHE : String := "checkpoints"

/-- Cache-directory constant `CKPT_CACHE = "unet-cache"` (predict.py line 31). -/
def CKPT_CACHE : String := "unet-cache"

/-- Fixed local path of the feature extractor, `FEATURE_EXTRACTOR = "feature-extractor"`
(predict.py line 34); loaded, never downloaded. -/
def FEATURE_EXTRACTOR : String := "feature-extractor"

/-- The scheduler configuration dict carried by a pipeline scheduler.  The two
keys the script manipulates (`timestep_spacing`, `use_karras_sigmas`) are
explicit fields; every other entry of the config dict is abstracted as an
opaque `rest` component that `from_config` carries over unchanged. -/
structure SchedulerConfig where
  timestep_spacing : String
  use_karras_sigmas : Bool
  rest : Nat
deriving DecidableEq, Repr

/-- The seven diffusers scheduler classes imported by predict.py
(lines 14-23). -/
inductive SchedClass where
  | DDIMScheduler
  | DPMSolverMultistepScheduler
  | HeunDiscreteScheduler
  | EulerAncestralDiscreteScheduler
  | EulerDiscreteScheduler
  | PNDMScheduler
  | KDPM2AncestralDiscreteScheduler
deriving DecidableEq, Repr

/-- A constructed sampler: its class together with its configuration. -/
structure Scheduler where
  cls : SchedClass
  config : SchedulerConfig
deriving DecidableEq, Repr

/-- Python exceptions the embedded code can raise. -/
inductive PyError where
  | typeError (msg : String)
  | exception (msg : String)
deriving DecidableEq, Repr

/-- An entry of the `SCHEDULERS` dict: either a diffusers scheduler class or
the local `KarrasDPM` wrapper class (predict.py lines 38-40). -/
inductive SchedEntry where
  | diffusers (c : SchedClass)
  | karrasDPM
deriving DecidableEq, Repr

/-- The `SCHEDULERS` dict (predict.py lines 42-51), in source order. -/
def SCHEDULERS : List (String × SchedEntry) :=
  [("DDIM", SchedEntry.diffusers SchedClass.DDIMScheduler),
   ("DPMSolverMultistep", SchedEntry.diffusers SchedClass.DPMSolverMultistepScheduler),
   ("HeunDiscrete", SchedEntry.diffusers SchedClass.HeunDiscreteScheduler),
   ("KarrasDPM", SchedEntry.karrasDPM),
   ("K_EULER_ANCESTRAL", SchedEntry.diffusers SchedClass.EulerAncestralDiscreteScheduler),
   ("K_EULER", SchedEntry.diffusers SchedClass.EulerDiscreteScheduler),
   ("PNDM", SchedEntry.diffusers SchedClass.PNDMScheduler),
   ("DPM++2MSDE", SchedEntry.diffusers SchedClass.KDPM2AncestralDiscreteScheduler)]

/-- Dict lookup `SCHEDULERS[scheduler]`. -/
def lookupScheduler (name : String) : Option SchedEntry :=
  (SCHEDULERS.find? (fun p => p.1 == name)).map (fun p => p.2)

/-- The `from_config` call on a `SCHEDULERS` entry with an optional
`timestep_spacing` keyword argument, as issued at predict.py line 157.

For a diffusers class, `from_config(config, timestep_spacing=s)` builds a new
scheduler of that class from the given config with `timestep_spacing`
overridden.  The local class `KarrasDPM` defines
`def from_config(config)` with no keyword parameters (lines 38-40), so
passing `timestep_spacing` raises a `TypeError`; without keywords it builds a
`DPMSolverMultistepScheduler` from the config with `use_karras_sigmas=True`. -/
def SchedEntry.from_config (e : SchedEntry) (cfg : SchedulerConfig)
    (spacing : Option String) : Except PyError Scheduler :=
  match e with
  | SchedEntry.diffusers c =>
      Except.ok { cls := c,
                  config := { cfg with timestep_spacing := spacing.getD cfg.timestep_spacing } }
  | SchedEntry.karrasDPM =>
      match spacing with
      | some _ =>
          Except.error (PyError.typeError
            "from_config() got an unexpected keyword argument timestep_spacing")
      | none =>
          Except.ok { cls := SchedClass.DPMSolverMultistepScheduler,
                      config := { cfg with use_karras_sigmas := true } }

/-- The full scheduler-resolution expression of predict.py line 157:
`SCHEDULERS[scheduler].from_config(pipe.scheduler.config, timestep_spacing=...)`.
A missing dict key raises `KeyError` (cog validates `choices` upstream, but the
expression itself is embedded as written). -/
def schedulerFromConfig (name : String) (cfg : SchedulerConfig)
    (spacing : Option String) : Except PyError Scheduler :=
  match lookupScheduler name with
  | none => Except.error (PyError.exception ("KeyError: " ++ name))
  | some e => e.from_config cfg spacing

/-- Observable steps of `Predictor.setup` (predict.py lines 61-88):
the three existence checks with their conditional downloads, and the four
model-loading actions. -/
inductive SetupEvent where
  | checkSafety
  | downloadSafety
  | checkBase
  | downloadBase
  | checkUnet
  | downloadUnet
  | loadSafety
  | loadFeatureExtractor
  | loadPipeline
  | loadUnetWeights
deriving DecidableEq, Repr

/-- Result of running `setup` against a disk state (the set of existing
paths): the ordered event trace, the list of cache directories that were
downloaded, and the resulting disk state. -/
structure SetupRun where
  trace : List SetupEvent
  downloads : List String
  disk : List String
deriving DecidableEq, Repr

/-- Embedding of `Predictor.setup` (predict.py lines 61-88).  The disk is a
list of existing paths; `os.path.exists(d)` is `disk.contains d`; a download
creates its destination directory.  The `os.environ` assignment and the
timing prints have no claim about them and are omitted from the trace.
Source order: the three check-and-maybe-download steps (lines 67-74) run
first, then the safety checker, feature extractor, pipeline, and UNet
weights are loaded (lines 75-87). -/
def setup (disk : List String) : SetupRun :=
  let dlS := !(disk.contains SAFETY_CACHE)
  let disk1 := if dlS then SAFETY_CACHE :: disk else disk
  let dlB := !(disk1.contains BASE_CACHE)
  let disk2 := if dlB then BASE_CACHE :: disk1 else disk1
  let dlU := !(disk2.contains CKPT_CACHE)
  let disk3 := if dlU then CKPT_CACHE :: disk2 else disk2
  { trace :=
      [SetupEvent.checkSafety] ++ (if dlS then [SetupEvent.downloadSafety] else [])
      ++ [SetupEvent.checkBase] ++ (if dlB then [SetupEvent.downloadBase] else [])
      ++ [SetupEvent.checkUnet] ++ (if dlU then [SetupEvent.downloadUnet] else [])
      ++ [SetupEvent.loadSafety, SetupEvent.loadFeatureExtractor,
          SetupEvent.loadPipeline, SetupEvent.loadUnetWeights],
    downloads :=
      (if dlS then [SAFETY_CACHE] else []) ++ (if dlB then [BASE_CACHE] else [])
      ++ (if dlU then [CKPT_CACHE] else []),
    disk := disk3 }

/-- Python `int.from_bytes(bs, "big")`. -/
def intFromBytesBig (bs : List Nat) : Nat :=
  bs.foldl (fun a b => a * 256 + b) 0

/-- Seed resolution (predict.py lines 146-147): `if seed is None: seed =
int.from_bytes(os.urandom(4), "big")`, with `randomBytes` the bytes
`os.urandom(4)` returns on this call. -/
def resolveSeed (seed : Option Int) (randomBytes : List Nat) : Int :=
  match seed with
  | none => Int.ofNat (intFromBytesBig randomBytes)
  | some s => s

/-- The argument record passed to the pipeline call at predict.py line 167:
`common_args` (lines 159-165) merged with `sdxl_kwargs` (lines 151-154).
`guidance_scale` is only forwarded, never computed with, so it is carried as
an abstract integer-coded scalar. -/
structure PipeArgs where
  prompt : List String
  negative_prompt : List String
  guidance_scale : Int
  generatorSeed : Int
  num_inference_steps : Nat
  width : Nat
  height : Nat
deriving DecidableEq, Repr

/-- Assembly of the pipeline-call arguments from a request and the resolved
seed: `common_args` replicates prompt and negative prompt `num_outputs`
times (predict.py lines 159-165), `sdxl_kwargs` carries width and height
(lines 151-154). -/
def pipeArgsOf (prompt negative_prompt : String) (width height num_outputs : Nat)
    (num_inference_steps : Nat) (guidance_scale : Int) (seed : Int) : PipeArgs :=
  { prompt := List.replicate num_outputs prompt,
    negative_prompt := List.replicate num_outputs negative_prompt,
    guidance_scale := guidance_scale,
    generatorSeed := seed,
    num_inference_steps := num_inference_steps,
    width := width,
    height := height }

/-- The fields of a `predict` request (predict.py lines 102-143). -/
structure Request where
  prompt : String
  negative_prompt : String
  width : Nat
  height : Nat
  num_outputs : Nat
  scheduler : String
  num_inference_steps : Nat
  guidance_scale : Int
  seed : Option Int
  disable_safety_checker : Bool
deriving DecidableEq, Repr

/-- Observable outcome of one `predict` call: the stdout log lines, the
files written (path, image), the returned value or raised exception, the
pipeline scheduler after the call, and the resolved seed. -/
structure RunOutcome where
  log : List String
  writes : List (String × Nat)
  result : Except PyError (List String)
  schedulerAfter : Scheduler
  seedUsed : Int
deriving Repr

/-- Output path `f"/tmp/out-{i}.png"` (predict.py line 178). -/
def outPath (i : Nat) : String :=
  "/tmp/out-" ++ toString i ++ ".png"

/-- Per-image NSFW flags: `run_safety_checker` (predict.py lines 90-99)
returns one boolean per input image; the classifier itself is the oracle
`flag`. -/
def nsfwFlags (flag : Nat → Bool) (images : List Nat) : List Bool :=
  images.map flag

/-- The filter condition of the output loop (predict.py lines 173-177): an
enumerated image `(i, image)` is kept unless the safety checker is enabled
and `has_nsfw_content[i]` is true. -/
def keepImage (disable : Bool) (flags : List Bool) (p : Nat × Nat) : Bool :=
  disable || !(flags.getD p.1 false)

/-- The accepted `(index, image)` pairs of the output loop, in original
generation order (predict.py lines 172-180). -/
def acceptedImages (disable : Bool) (flags : List Bool) (images : List Nat) :
    List (Nat × Nat) :=
  images.enum.filter (keepImage disable flags)

/-- The `"NSFW content detected in image {i}"` log lines emitted for dropped
indices (predict.py line 176). -/
def droppedLogs (disable : Bool) (flags : List Bool) (images : List Nat) :
    List String :=
  (images.enum.filter (fun p => !(keepImage disable flags p))).map
    (fun p => "NSFW content detected in image " ++ toString p.1)

/-- Embedding of `Predictor.predict` (predict.py lines 101-187).

Oracles standing for the external libraries: `pipeRun` is the diffusion
pipeline call (line 167), a deterministic function of the active scheduler
and the passed arguments (the generator seed included); `flag` is the
per-image safety classifier behind `run_safety_checker`.  `randomBytes` is
the byte string `os.urandom(4)` would return on this call.  `sched0` is
`self.pipe.scheduler` before the call. -/
def predict (pipeRun : Scheduler → PipeArgs → List Nat) (flag : Nat → Bool)
    (sched0 : Scheduler) (randomBytes : List Nat) (req : Request) : RunOutcome :=
  let seed : Int := resolveSeed req.seed randomBytes
  let log0 := ["Using seed: " ++ toString seed, "Prompt: " ++ req.prompt]
  match schedulerFromConfig req.scheduler sched0.config (some "trailing") with
  | Except.error e =>
      { log := log0, writes := [], result := Except.error e,
        schedulerAfter := sched0, seedUsed := seed }
  | Except.ok sched =>
      let args : PipeArgs :=
        pipeArgsOf req.prompt req.negative_prompt req.width req.height
          req.num_outputs req.num_inference_steps req.guidance_scale seed
      let images := pipeRun sched args
      let flags := nsfwFlags flag images
      let accepted := acceptedImages req.disable_safety_checker flags images
      let paths := accepted.map (fun p => outPath p.1)
      { log := log0 ++ droppedLogs req.disable_safety_checker flags images,
        writes := accepted.map (fun p => (outPath p.1, p.2)),
        result :=
          if paths.isEmpty then
            Except.error (PyError.exception
              "NSFW content detected. Try running it again, or try a different prompt.")
          else Except.ok paths,
        schedulerAfter := sched, seedUsed := seed }

/-! Helper lemmas about the output-assembly loop. -/

theorem length_accepted_le (d : Bool) (fl : List Bool) (im : List Nat) :
    (acceptedImages d fl im).length ≤ im.length := by
  calc (acceptedImages d fl im).length ≤ im.enum.length := List.length_filter_le _ _
    _ = im.length := by simp

theorem accepted_disable_true (fl : List Bool) (im : List Nat) :
    acceptedImages true fl im = im.enum := by
  unfold acceptedImages
  apply List.filter_eq_self.mpr
  intro p _
  simp [keepImage]

theorem droppedLogs_disable_true (fl : List Bool) (im : List Nat) :
    droppedLogs true fl im = [] := by
  unfold droppedLogs
  simp [keepImage]

theorem mem_accepted (d : Bool) (fl : List Bool) (im : List Nat) (p : Nat × Nat)
    (h : p ∈ acceptedImages d fl im) : p.1 < im.length ∧ im[p.1]? = some p.2 := by
  have hm : p ∈ im.enum := (List.mem_filter.mp h).1
  have hg := List.mem_enum_iff_getElem?.mp hm
  exact ⟨(List.getElem?_eq_some.mp hg).1, hg⟩

/-! Concrete instantiations used to witness the theorems on concrete runs:
an all-clear safety classifier, a classifier that flags the image with
value 0, a pipeline oracle returning one distinct image per prompt entry,
and a baseline request mirroring the default parameter values of
predict.py lines 102-143. -/

def cfg0 : SchedulerConfig :=
  { timestep_spacing := "leading", use_karras_sigmas := false, rest := 0 }

def schedInit : Scheduler :=
  { cls := SchedClass.EulerDiscreteScheduler, config := cfg0 }

def pipeRunIota : Scheduler → PipeArgs → List Nat :=
  fun _ a => List.range a.prompt.length

def flagNone : Nat → Bool := fun _ => false

def flagZero : Nat → Bool := fun img => img == 0

def reqDefault : Request :=
  { prompt := "A girl smiling",
    negative_prompt := "worst quality, low quality",
    width := 1024,
    height := 1024,
    num_outputs := 1,
    scheduler := "K_EULER",
    num_inference_steps := 4,
    guidance_scale := 0,
    seed := some 42,
    disable_safety_checker := false }

/-- C1: for every predict call, a successfully returned sequence of output
paths has length between 1 and `num_outputs` inclusive, and a call that
writes no image (safety filtering removed every one) fails with an explicit
error rather than returning an empty success.  The hypothesis `hlen` is the
diffusion-library contract that the pipeline returns one image per
replicated prompt entry. -/
theorem predict_output_length_bounds
    (pipeRun : Scheduler → PipeArgs → List Nat) (flag : Nat → Bool)
    (sched0 : Scheduler) (bytes : List Nat) (req : Request)
    (hlen : ∀ s a, (pipeRun s a).length = a.prompt.length) :
    (∀ paths, (predict pipeRun flag sched0 bytes req).result = Except.ok paths →
        1 ≤ paths.length ∧ paths.length ≤ req.num_outputs) ∧
    ((predict pipeRun flag sched0 bytes req).writes = [] →
        ∃ e, (predict pipeRun flag sched0 bytes req).result = Except.error e) := by
  cases h : schedulerFromConfig req.scheduler sched0.config (some "trailing") with
  | error e =>
      constructor
      · intro paths hp
        simp [predict, h] at hp
      · intro _
        exact ⟨e, by simp [predict, h]⟩
  | ok sch =>
      refine ⟨?_, ?_⟩
      · intro paths hp
        simp only [predict, h] at hp
        split at hp
        · exact absurd hp (by simp)
        · next hne =>
          injection hp with hp
          subst hp
          refine ⟨?_, ?_⟩
          · refine List.length_pos.mpr ?_
            intro hh
            exact hne (List.isEmpty_iff.mpr hh)
          · simp only [List.length_map]
            refine le_trans (length_accepted_le _ _ _) ?_
            rw [hlen]
            simp [pipeArgsOf]
      · intro hw
        simp only [predict, h] at hw ⊢
        have hacc := List.map_eq_nil_iff.mp hw
        rw [hacc]
        simp

/-- Witness for C1: the default request on the iota pipeline returns exactly
the path list `["/tmp/out-0.png"]`, whose length is within the stated
bounds. -/
theorem predict_output_length_bounds_witness :
    1 ≤ (["/tmp/out-0.png"] : List String).length ∧
      (["/tmp/out-0.png"] : List String).length ≤ reqDefault.num_outputs :=
  (predict_output_length_bounds pipeRunIota flagNone schedInit [] reqDefault
      (fun _ a => by simp [pipeRunIota])).1 ["/tmp/out-0.png"] (by rfl)

/-- C2: selecting the scheduler identifier "KarrasDPM" does not succeed.
The dict lookup finds the local `KarrasDPM` class, but its
`from_config(config)` accepts no `timestep_spacing` keyword, so the call at
predict.py line 157 raises a `TypeError`; a predict request choosing
"KarrasDPM" therefore fails before the pipeline ever runs.  This refutes
the claim that all 8 identifiers resolve uniformly with the trailing
spacing applied. -/
theorem karrasDPM_resolution_raises :
    schedulerFromConfig "KarrasDPM" cfg0 (some "trailing")
      = Except.error (PyError.typeError
          "from_config() got an unexpected keyword argument timestep_spacing") ∧
    (predict pipeRunIota flagNone schedInit []
        { reqDefault with scheduler := "KarrasDPM" }).result
      = Except.error (PyError.typeError
          "from_config() got an unexpected keyword argument timestep_spacing") ∧
    (∀ e ∈ SCHEDULERS, e.1 ≠ "KarrasDPM" →
      ∃ sch, schedulerFromConfig e.1 cfg0 (some "trailing") = Except.ok sch ∧
        sch.config.timestep_spacing = "trailing") := by
  refine ⟨rfl, rfl, ?_⟩
  intro e he hne
  fin_cases he <;> simp at hne ⊢ <;> exact ⟨_, rfl, rfl⟩

/-- C3: with `disable_safety_checker = true` the safety classifier is never
consulted (the run outcome is independent of it), a successful result has
length exactly `num_outputs`, and when the scheduler resolves and
`num_outputs ≥ 1` the call does succeed with all images kept. -/
theorem predict_disabled_safety_keeps_all
    (pipeRun : Scheduler → PipeArgs → List Nat) (flag : Nat → Bool)
    (sched0 : Scheduler) (bytes : List Nat) (req : Request)
    (hlen : ∀ s a, (pipeRun s a).length = a.prompt.length)
    (hdis : req.disable_safety_checker = true) :
    (∀ flag2, predict pipeRun flag2 sched0 bytes req
        = predict pipeRun flag sched0 bytes req) ∧
    (∀ paths, (predict pipeRun flag sched0 bytes req).result = Except.ok paths →
        paths.length = req.num_outputs) ∧
    (1 ≤ req.num_outputs →
      ∀ sch, schedulerFromConfig req.scheduler sched0.config (some "trailing")
          = Except.ok sch →
      ∃ paths, (predict pipeRun flag sched0 bytes req).result = Except.ok paths ∧
        paths.length = req.num_outputs) := by
  have hB : ∀ paths, (predict pipeRun flag sched0 bytes req).result = Except.ok paths →
      paths.length = req.num_outputs := by
    intro paths hp
    cases h : schedulerFromConfig req.scheduler sched0.config (some "trailing") with
    | error e => simp [predict, h] at hp
    | ok sch =>
        simp only [predict, h, hdis, accepted_disable_true] at hp
        split at hp
        · exact absurd hp (by simp)
        · injection hp with hp
          subst hp
          simp only [List.length_map, List.enum_length]
          rw [hlen]
          simp [pipeArgsOf]
  refine ⟨?_, hB, ?_⟩
  · intro flag2
    cases h : schedulerFromConfig req.scheduler sched0.config (some "trailing") with
    | error e => simp [predict, h]
    | ok sch =>
        simp [predict, h, hdis, accepted_disable_true, droppedLogs_disable_true]
  · intro hpos sch h
    cases hE : (predict pipeRun flag sched0 bytes req).result with
    | ok paths => exact ⟨paths, rfl, hB paths hE⟩
    | error e =>
        exfalso
        simp only [predict, h, hdis, accepted_disable_true] at hE
        split at hE
        · next hemp =>
            rw [List.isEmpty_iff, List.map_eq_nil_iff] at hemp
            have h0 := congrArg List.length hemp
            simp only [List.enum_length, List.length_nil] at h0
            have hl := hlen sch (pipeArgsOf req.prompt req.negative_prompt req.width
              req.height req.num_outputs req.num_inference_steps req.guidance_scale
              (resolveSeed req.seed bytes))
            rw [h0] at hl
            simp [pipeArgsOf] at hl
            omega
        · exact absurd hE (by simp)

/-- Witness for C3: a two-image request with the safety checker disabled
returns both paths even under the classifier that would flag the first
image. -/
theorem predict_disabled_safety_keeps_all_witness :
    ∃ paths, (predict pipeRunIota flagZero schedInit []
        { reqDefault with num_outputs := 2, disable_safety_checker := true }).result
      = Except.ok paths ∧ paths.length
      = ({ reqDefault with num_outputs := 2, disable_safety_checker := true } : Request).num_outputs :=
  (predict_disabled_safety_keeps_all pipeRunIota flagZero schedInit []
      { reqDefault with num_outputs := 2, disable_safety_checker := true }
      (fun _ a => by simp [pipeRunIota]) rfl).2.2 (by decide) _ rfl

/-- Big-endian recombination of four bytes stays below `2^32`. -/
theorem intFromBytesBig_four_lt (bs : List Nat) (h4 : bs.length = 4)
    (hb : ∀ b ∈ bs, b < 256) : intFromBytesBig bs < 2 ^ 32 := by
  match bs, h4 with
  | [a, b, c, d], _ =>
      have ha := hb a (by simp)
      have hbb := hb b (by simp)
      have hc := hb c (by simp)
      have hd := hb d (by simp)
      simp only [intFromBytesBig, List.foldl]
      omega

/-- C4: the resolved seed is the big-endian value of the four
`os.urandom(4)` bytes when the caller supplies no seed (hence a value in
`[0, 2^32)`), is the caller's seed verbatim otherwise, and is logged in
both cases. -/
theorem predict_seed_resolution
    (pipeRun : Scheduler → PipeArgs → List Nat) (flag : Nat → Bool)
    (sched0 : Scheduler) (bytes : List Nat) (req : Request)
    (h4 : bytes.length = 4) (hb : ∀ b ∈ bytes, b < 256) :
    (req.seed = none →
      (predict pipeRun flag sched0 bytes req).seedUsed
          = Int.ofNat (intFromBytesBig bytes) ∧
      0 ≤ (predict pipeRun flag sched0 bytes req).seedUsed ∧
      (predict pipeRun flag sched0 bytes req).seedUsed < 2 ^ 32) ∧
    (∀ s, req.seed = some s →
      (predict pipeRun flag sched0 bytes req).seedUsed = s) ∧
    ("Using seed: " ++ toString (predict pipeRun flag sched0 bytes req).seedUsed)
      ∈ (predict pipeRun flag sched0 bytes req).log := by
  have hseed : (predict pipeRun flag sched0 bytes req).seedUsed
      = resolveSeed req.seed bytes := by
    cases h : schedulerFromConfig req.scheduler sched0.config (some "trailing") with
    | error e => simp [predict, h]
    | ok sch => simp [predict, h]
  have hlog : ("Using seed: "
        ++ toString (predict pipeRun flag sched0 bytes req).seedUsed)
      ∈ (predict pipeRun flag sched0 bytes req).log := by
    rw [hseed]
    cases h : schedulerFromConfig req.scheduler sched0.config (some "trailing") with
    | error e => simp [predict, h]
    | ok sch => simp [predict, h]
  refine ⟨?_, ?_, hlog⟩
  · intro hn
    have hv : (predict pipeRun flag sched0 bytes req).seedUsed
        = Int.ofNat (intFromBytesBig bytes) := by
      rw [hseed]
      simp [resolveSeed, hn]
    rw [hv]
    have h32 := intFromBytesBig_four_lt bytes h4 hb
    refine ⟨rfl, Int.ofNat_nonneg _, Int.ofNat_lt.mpr h32⟩
  · intro s hs
    rw [hseed]
    simp [resolveSeed, hs]

/-- Witness for C4: a seedless request with entropy bytes `[0,0,0,42]`
resolves the seed to 42, within the 32-bit range, and logs it. -/
theorem predict_seed_resolution_witness :
    (predict pipeRunIota flagNone schedInit [0, 0, 0, 42]
        { reqDefault with seed := none }).seedUsed
      = Int.ofNat (intFromBytesBig [0, 0, 0, 42]) ∧
    (predict pipeRunIota flagNone schedInit [0, 0, 0, 42]
        { reqDefault with seed := none }).seedUsed < 2 ^ 32 ∧
    ("Using seed: " ++ toString (predict pipeRunIota flagNone schedInit
        [0, 0, 0, 42] { reqDefault with seed := none }).seedUsed)
      ∈ (predict pipeRunIota flagNone schedInit [0, 0, 0, 42]
        { reqDefault with seed := none }).log := by
  have h := predict_seed_resolution pipeRunIota flagNone schedInit [0, 0, 0, 42]
    { reqDefault with seed := none } (by decide) (by decide)
  exact ⟨(h.1 rfl).1, (h.1 rfl).2.2, h.2.2⟩

/-- Modelled from the spec (section 4.3): the step order the specification
asserts for `setup` — ensure the safety-checker artifact then load it, load
the feature extractor, ensure the base artifact then load the pipeline,
ensure the UNet artifact then overwrite the UNet weights.  On an empty disk
every ensure performs its download.  Stated for comparison with the trace
of the embedded `setup`. -/
def claimedSetupTraceFreshDisk : List SetupEvent :=
  [SetupEvent.checkSafety, SetupEvent.downloadSafety, SetupEvent.loadSafety,
   SetupEvent.loadFeatureExtractor,
   SetupEvent.checkBase, SetupEvent.downloadBase, SetupEvent.loadPipeline,
   SetupEvent.checkUnet, SetupEvent.downloadUnet, SetupEvent.loadUnetWeights]

/-- Counterexample to C5: on a fresh disk the trace of the embedded `setup`
is not the order the specification claims; in particular the base-artifact
ensure step runs before the safety checker is loaded, while the claim puts
loading the safety checker before ensuring the base artifact. -/
theorem setup_order_counterexample :
    (setup []).trace ≠ claimedSetupTraceFreshDisk ∧
    (setup []).trace.indexOf SetupEvent.checkBase
      < (setup []).trace.indexOf SetupEvent.loadSafety ∧
    claimedSetupTraceFreshDisk.indexOf SetupEvent.loadSafety
      < claimedSetupTraceFreshDisk.indexOf SetupEvent.checkBase := by
  decide

/-- C5 (amended): `setup` first runs the three ensure steps in order
safety-checker, base pipeline, UNet checkpoint — each downloading exactly
when its cache directory is absent from the original disk, the three
directory names being distinct — and only then loads the safety checker,
the feature extractor, the full pipeline, and the UNet weight overwrite,
in that order. -/
theorem setup_trace_checks_then_loads (disk : List String) :
    (setup disk).trace =
      [SetupEvent.checkSafety]
      ++ (if disk.contains SAFETY_CACHE then [] else [SetupEvent.downloadSafety])
      ++ [SetupEvent.checkBase]
      ++ (if disk.contains BASE_CACHE then [] else [SetupEvent.downloadBase])
      ++ [SetupEvent.checkUnet]
      ++ (if disk.contains CKPT_CACHE then [] else [SetupEvent.downloadUnet])
      ++ [SetupEvent.loadSafety, SetupEvent.loadFeatureExtractor,
          SetupEvent.loadPipeline, SetupEvent.loadUnetWeights] := by
  by_cases hS : "safety-cache" ∈ disk <;>
  by_cases hB : "checkpoints" ∈ disk <;>
  by_cases hU : "unet-cache" ∈ disk <;>
  simp [setup, hS, hB, hU, SAFETY_CACHE, BASE_CACHE, CKPT_CACHE]

/-- C6: weight fetching is idempotent — a cache directory is downloaded only
when absent from the disk, and a second `setup` run on the disk state a
first run leaves behind downloads nothing. -/
theorem setup_downloads_only_missing (disk : List String) :
    (∀ d, d ∈ (setup disk).downloads → d ∉ disk) ∧
    (setup (setup disk).disk).downloads = [] := by
  by_cases hS : "safety-cache" ∈ disk <;>
  by_cases hB : "checkpoints" ∈ disk <;>
  by_cases hU : "unet-cache" ∈ disk <;>
  simp [setup, hS, hB, hU, SAFETY_CACHE, BASE_CACHE, CKPT_CACHE]

/-- Witness for C6: on an empty disk the first run downloads the
safety-cache directory (absent from the empty disk), and the second run
downloads nothing. -/
theorem setup_downloads_only_missing_witness :
    ("safety-cache" ∉ ([] : List String)) ∧
    (setup (setup []).disk).downloads = [] :=
  ⟨(setup_downloads_only_missing []).1 "safety-cache" (by decide),
   (setup_downloads_only_missing []).2⟩

/-- Resolution with the fixed "trailing" override gives the same sampler
whatever `timestep_spacing` the pipeline's current config carries: the
override wins, and no other config entry is touched. -/
theorem resolve_trailing_config (name : String) (cfg : SchedulerConfig) (s : String) :
    schedulerFromConfig name { cfg with timestep_spacing := s } (some "trailing")
      = schedulerFromConfig name cfg (some "trailing") := by
  unfold schedulerFromConfig
  cases lookupScheduler name with
  | none => rfl
  | some e =>
      cases e with
      | diffusers c => simp [SchedEntry.from_config]
      | karrasDPM => rfl

/-- After a predict call the pipeline scheduler is either unchanged (the
call failed before the swap) or carries the original config with only
`timestep_spacing` forced to "trailing". -/
theorem schedulerAfter_cases (pipeRun : Scheduler → PipeArgs → List Nat)
    (flag : Nat → Bool) (sched0 : Scheduler) (bytes : List Nat) (req : Request) :
    (predict pipeRun flag sched0 bytes req).schedulerAfter = sched0 ∨
    (predict pipeRun flag sched0 bytes req).schedulerAfter.config
      = { sched0.config with timestep_spacing := "trailing" } := by
  cases h : schedulerFromConfig req.scheduler sched0.config (some "trailing") with
  | error e => left; simp [predict, h]
  | ok sch =>
      right
      have hs : (predict pipeRun flag sched0 bytes req).schedulerAfter = sch := by
        simp [predict, h]
      rw [hs]
      unfold schedulerFromConfig at h
      cases hl : lookupScheduler req.scheduler with
      | none => rw [hl] at h; exact absurd h (by simp)
      | some e =>
          rw [hl] at h
          cases e with
          | diffusers c =>
              simp only [SchedEntry.from_config] at h
              injection h with h
              rw [← h]
              rfl
          | karrasDPM => simp [SchedEntry.from_config] at h

/-- C7: the scheduler swap of one predict call does not leak into the next
sequential call.  Running some request `r1` first and then `r2` on the
pipeline state `r1` left behind gives exactly the outcome `r2` would have
produced on the original pipeline state, provided `r2`'s scheduler name
resolves: the resulting sampler is determined solely by `r2`'s own
scheduler choice. -/
theorem scheduler_no_leakage
    (pipeRun : Scheduler → PipeArgs → List Nat) (flag : Nat → Bool)
    (sched0 : Scheduler) (b1 b2 : List Nat) (r1 r2 : Request)
    (hok : ∃ sch, schedulerFromConfig r2.scheduler sched0.config (some "trailing")
        = Except.ok sch) :
    predict pipeRun flag (predict pipeRun flag sched0 b1 r1).schedulerAfter b2 r2
      = predict pipeRun flag sched0 b2 r2 := by
  obtain ⟨sch, hsch⟩ := hok
  set sa := (predict pipeRun flag sched0 b1 r1).schedulerAfter with hsa
  have hres : schedulerFromConfig r2.scheduler sa.config (some "trailing")
      = Except.ok sch := by
    rw [hsa]
    rcases schedulerAfter_cases pipeRun flag sched0 b1 r1 with hc | hc
    · rw [hc]; exact hsch
    · rw [hc, resolve_trailing_config]; exact hsch
  simp only [predict, hres, hsch]

/-- Witness for C7: a DDIM request followed by the default K_EULER request
yields the same outcome the K_EULER request yields on the fresh pipeline. -/
theorem scheduler_no_leakage_witness :
    predict pipeRunIota flagNone
        (predict pipeRunIota flagNone schedInit []
          { reqDefault with scheduler := "DDIM" }).schedulerAfter [] reqDefault
      = predict pipeRunIota flagNone schedInit [] reqDefault :=
  scheduler_no_leakage pipeRunIota flagNone schedInit [] []
    { reqDefault with scheduler := "DDIM" } reqDefault ⟨_, rfl⟩

/-- C8: determinism as a two-run property.  With the pipeline and safety
models fixed (same oracles, same pipeline scheduler state) and a
caller-supplied seed, two predict calls with identical request parameters
produce identical outcomes — same output images written, same returned
paths — whatever entropy the operating system would have offered each
run. -/
theorem predict_two_runs_deterministic
    (pipeRun : Scheduler → PipeArgs → List Nat) (flag : Nat → Bool)
    (sched0 : Scheduler) (b1 b2 : List Nat) (req : Request) (s : Int)
    (hseed : req.seed = some s) :
    predict pipeRun flag sched0 b1 req = predict pipeRun flag sched0 b2 req := by
  simp only [predict, resolveSeed, hseed]

/-- Witness for C8: the default request (seed 42) gives the same outcome
under two different entropy sources. -/
theorem predict_two_runs_deterministic_witness :
    predict pipeRunIota flagNone schedInit [] reqDefault
      = predict pipeRunIota flagNone schedInit [9, 9, 9, 9] reqDefault :=
  predict_two_runs_deterministic pipeRunIota flagNone schedInit [] [9, 9, 9, 9]
    reqDefault 42 rfl

/-- The accepted pairs of the output loop keep strictly increasing
generation indices (they are a filtered enumeration). -/
theorem accepted_pairwise_fst_lt (d : Bool) (fl : List Bool) (im : List Nat) :
    (acceptedImages d fl im).Pairwise (fun a b => a.1 < b.1) := by
  have h0 : ((im.enum).map Prod.fst).Pairwise (· < ·) := by
    rw [List.enum_map_fst]
    exact List.pairwise_lt_range _
  have h1 := List.pairwise_map.mp h0
  exact h1.filter _

/-- In a list of pairs with strictly increasing first components all at
least `m`, the `k`-th first component is at least `m + k`. -/
theorem le_fst_get_of_pairwise (l : List (Nat × Nat)) (m : Nat)
    (hm : ∀ p ∈ l, m ≤ p.1) (h : l.Pairwise (fun a b => a.1 < b.1)) :
    ∀ k (hk : k < l.length), m + k ≤ (l.get ⟨k, hk⟩).1 := by
  induction l generalizing m with
  | nil => intro k hk; simp at hk
  | cons x t ih =>
      intro k hk
      cases k with
      | zero => simpa using hm x (by simp)
      | succ k =>
          have hp := List.pairwise_cons.mp h
          have ht : ∀ p ∈ t, x.1 + 1 ≤ p.1 := fun p hp2 => hp.1 p hp2
          have hx : m ≤ x.1 := hm x (by simp)
          have hk2 : k < t.length := by simpa using hk
          have hrec := ih (x.1 + 1) ht hp.2 k hk2
          have hget : (x :: t).get ⟨k + 1, hk⟩ = t.get ⟨k, hk2⟩ := rfl
          rw [hget]
          omega

/-- C9: output filenames keep the original generation index.  Every file a
predict call writes is `/tmp/out-i.png` for the index `i` of the generated
image stored in it; the `k`-th returned path is `out-i.png` for some
`i ≥ k`, not necessarily `out-k.png`; and concretely, a two-image request
whose first image is flagged returns `["/tmp/out-1.png"]` — a
non-contiguous list containing `out-1.png` without `out-0.png`. -/
theorem output_paths_keep_generation_index
    (pipeRun : Scheduler → PipeArgs → List Nat) (flag : Nat → Bool)
    (sched0 : Scheduler) (bytes : List Nat) (req : Request) (sch : Scheduler)
    (hok : schedulerFromConfig req.scheduler sched0.config (some "trailing")
        = Except.ok sch) :
    (∀ p img, (p, img) ∈ (predict pipeRun flag sched0 bytes req).writes →
      ∃ i, i < (pipeRun sch (pipeArgsOf req.prompt req.negative_prompt req.width
          req.height req.num_outputs req.num_inference_steps req.guidance_scale
          (resolveSeed req.seed bytes))).length ∧
        p = outPath i ∧
        (pipeRun sch (pipeArgsOf req.prompt req.negative_prompt req.width
          req.height req.num_outputs req.num_inference_steps req.guidance_scale
          (resolveSeed req.seed bytes)))[i]? = some img) ∧
    (∀ paths, (predict pipeRun flag sched0 bytes req).result = Except.ok paths →
      ∀ k, ∀ hk : k < paths.length, ∃ i, k ≤ i ∧ paths.get ⟨k, hk⟩ = outPath i) ∧
    (predict pipeRunIota flagZero schedInit []
        { reqDefault with num_outputs := 2 }).result = Except.ok [outPath 1] := by
  refine ⟨?_, ?_, by rfl⟩
  · intro p img hmem
    simp only [predict, hok] at hmem
    rw [List.mem_map] at hmem
    obtain ⟨q, hq, hqe⟩ := hmem
    have hb := mem_accepted _ _ _ _ hq
    injection hqe with h1 h2
    exact ⟨q.1, hb.1, h1.symm, by rw [← h2]; exact hb.2⟩
  · intro paths hres k hk
    simp only [predict, hok] at hres
    split at hres
    · exact absurd hres (by simp)
    · injection hres with hres
      subst hres
      set acc := acceptedImages req.disable_safety_checker
        (nsfwFlags flag (pipeRun sch (pipeArgsOf req.prompt req.negative_prompt
          req.width req.height req.num_outputs req.num_inference_steps
          req.guidance_scale (resolveSeed req.seed bytes))))
        (pipeRun sch (pipeArgsOf req.prompt req.negative_prompt req.width
          req.height req.num_outputs req.num_inference_steps req.guidance_scale
          (resolveSeed req.seed bytes))) with hacc
      have hk2 : k < acc.length := by simpa using hk
      have hpair := accepted_pairwise_fst_lt req.disable_safety_checker
        (nsfwFlags flag (pipeRun sch (pipeArgsOf req.prompt req.negative_prompt
          req.width req.height req.num_outputs req.num_inference_steps
          req.guidance_scale (resolveSeed req.seed bytes))))
        (pipeRun sch (pipeArgsOf req.prompt req.negative_prompt req.width
          req.height req.num_outputs req.num_inference_steps req.guidance_scale
          (resolveSeed req.seed bytes)))
      rw [← hacc] at hpair
      have hle := le_fst_get_of_pairwise acc 0 (fun p _ => Nat.zero_le _) hpair k hk2
      refine ⟨(acc.get ⟨k, hk2⟩).1, by omega, ?_⟩
      simp [List.getElem_map]

/-- Witness for C9: the concrete two-image run with the first image flagged
returns exactly the path of index 1. -/
theorem output_paths_keep_generation_index_witness :
    (predict pipeRunIota flagZero schedInit []
        { reqDefault with num_outputs := 2 }).result = Except.ok [outPath 1] :=
  (output_paths_keep_generation_index pipeRunIota flagZero schedInit []
      { reqDefault with num_outputs := 2 } _ rfl).2.2

/-- C10: output paths are fixed across requests.  Any path returned by an
earlier predict call is written again by a later call that accepts the same
index — here instantiated with a later call that disables the safety
checker and requests at least as many outputs, so it writes every per-index
path `/tmp/out-i.png` with `i` below its output count, including the paths
the earlier call returned. -/
theorem later_call_overwrites_returned_paths
    (p1 : Scheduler → PipeArgs → List Nat) (f1 : Nat → Bool)
    (p2 : Scheduler → PipeArgs → List Nat) (f2 : Nat → Bool)
    (sched1 sched2 : Scheduler) (b1 b2 : List Nat) (r1 r2 : Request)
    (paths : List String) (p : String)
    (hlen1 : ∀ s a, (p1 s a).length = a.prompt.length)
    (hlen2 : ∀ s a, (p2 s a).length = a.prompt.length)
    (hdis2 : r2.disable_safety_checker = true)
    (hok2 : ∃ sch, schedulerFromConfig r2.scheduler sched2.config (some "trailing")
        = Except.ok sch)
    (hn : r1.num_outputs ≤ r2.num_outputs)
    (h1 : (predict p1 f1 sched1 b1 r1).result = Except.ok paths)
    (hp : p ∈ paths) :
    p ∈ (predict p2 f2 sched2 b2 r2).writes.map Prod.fst := by
  obtain ⟨sch2, hsch2⟩ := hok2
  cases hr1 : schedulerFromConfig r1.scheduler sched1.config (some "trailing") with
  | error e =>
      simp only [predict, hr1] at h1
      exact absurd h1 (by simp)
  | ok sch1 =>
      simp only [predict, hr1] at h1
      split at h1
      · exact absurd h1 (by simp)
      · injection h1 with h1
        subst h1
        rw [List.mem_map] at hp
        obtain ⟨q, hq, rfl⟩ := hp
        have hb := mem_accepted _ _ _ _ hq
        have him1 : (p1 sch1 (pipeArgsOf r1.prompt r1.negative_prompt r1.width
            r1.height r1.num_outputs r1.num_inference_steps r1.guidance_scale
            (resolveSeed r1.seed b1))).length = r1.num_outputs := by
          rw [hlen1]; simp [pipeArgsOf]
        have hq1 := hb.1
        rw [him1] at hq1
        simp only [predict, hsch2, hdis2, accepted_disable_true]
        rw [List.map_map, List.mem_map]
        have hlt2 : q.1 < (p2 sch2 (pipeArgsOf r2.prompt r2.negative_prompt r2.width
            r2.height r2.num_outputs r2.num_inference_steps r2.guidance_scale
            (resolveSeed r2.seed b2))).length := by
          rw [hlen2]; simp [pipeArgsOf]; omega
        refine ⟨(q.1, (p2 sch2 (pipeArgsOf r2.prompt r2.negative_prompt r2.width
            r2.height r2.num_outputs r2.num_inference_steps r2.guidance_scale
            (resolveSeed r2.seed b2))).get ⟨q.1, hlt2⟩), ?_, rfl⟩
        apply List.mem_enum_iff_getElem?.mpr
        simp [List.getElem?_eq_getElem hlt2]

/-- Witness for C10: the default request returns `/tmp/out-0.png`, and a
subsequent safety-disabled request writes that same path again. -/
theorem later_call_overwrites_returned_paths_witness :
    "/tmp/out-0.png" ∈ (predict pipeRunIota flagNone schedInit []
        { reqDefault with disable_safety_checker := true }).writes.map Prod.fst :=
  later_call_overwrites_returned_paths pipeRunIota flagNone pipeRunIota flagNone
    schedInit schedInit [] [] reqDefault
    { reqDefault with disable_safety_checker := true }
    ["/tmp/out-0.png"] "/tmp/out-0.png"
    (fun _ a => by simp [pipeRunIota]) (fun _ a => by simp [pipeRunIota])
    rfl ⟨_, rfl⟩ (le_refl _) (by rfl) (by simp)
